import Mathlib

/-!
# Verification of skygear-server record handlers and push routing

Shallow embedding of the record save/fetch/query/delete handlers
(`src/unnamed/part_000`, Go package `handler`) and of the push routing
module (`src/push/push.go`, Go package `push`), together with proofs of
the spec claims about them.

Collaborator code living in other packages of the repository
(`recordutil`, `skydb.WithTransaction`, `queryAccessVisitor`) is not in
the provided sources; where a claim depends on it, the corresponding
definition is modelled from the spec and says so in its doc comment.
-/

set_option autoImplicit false

namespace Skygear

/-! ## Error model (package `skyerr`) -/

/-- Error codes of the `skyerr` package that appear in the embedded code. -/
inductive ErrCode where
  | BadRequest
  | InvalidArgument
  | NotSupported
  | PermissionDenied
  | IncompatibleSchema
  | AtomicOperationFailure
  | UnexpectedError
  deriving DecidableEq, Repr

mutual
/-- `skyerr.Error`: a code, a human message and a structured `info` map
(modelled as an association list from key to value). -/
inductive SkyError where
  | mk : ErrCode → String → List (String × InfoVal) → SkyError

/-- Values that the embedded code stores in an error's `info` map. -/
inductive InfoVal where
  | str : String → InfoVal
  | strList : List String → InfoVal
  | err : SkyError → InfoVal
  | errList : List SkyError → InfoVal
  | goError : String → InfoVal
end

/-- The code of a `skyerr.Error`. -/
def SkyError.code : SkyError → ErrCode
  | .mk c _ _ => c

/-- The message of a `skyerr.Error`. -/
def SkyError.message : SkyError → String
  | .mk _ m _ => m

/-- The `info` map of a `skyerr.Error`. -/
def SkyError.info : SkyError → List (String × InfoVal)
  | .mk _ _ i => i

/-- `skyerr.NewError`. -/
def newError (c : ErrCode) (msg : String) : SkyError := .mk c msg []

/-- `skyerr.NewErrorWithInfo`. -/
def newErrorWithInfo (c : ErrCode) (msg : String) (info : List (String × InfoVal)) :
    SkyError := .mk c msg info

/-- `skyerr.NewInvalidArgument(message, arguments)`. -/
def newInvalidArgument (msg : String) (args : List String) : SkyError :=
  .mk .InvalidArgument msg [("arguments", .strList args)]

/-- `skyerr.MakeError` applied to a plain (non-skyerr) Go error: wraps it as
an UnexpectedError. -/
def makeError (msg : String) : SkyError := .mk .UnexpectedError msg []

/-- A plain Go `error` result: either a `skyerr.Error` or an untyped error. -/
inductive GoErr where
  | sky : SkyError → GoErr
  | plain : String → GoErr

/-! ## Record identity and values (package `skydb`) -/

/-- `skydb.RecordID`: composite (record type, key) identifier. -/
structure RecordID where
  type : String
  key : String
  deriving DecidableEq, Repr

/-- `RecordID.String()`: `Type + "/" + Key`. -/
def RecordID.toGoString (id : RecordID) : String := id.type ++ "/" ++ id.key

/-- Field value types trackable by the schema. -/
inductive RType where
  | typeString
  | typeInteger
  | typeNumber
  | typeBoolean
  | typeRef
  | typeAsset
  | typeGeo
  | typeSequence
  | typeDateTime
  deriving DecidableEq, Repr

/-- Field values carried by a record. -/
inductive RVal where
  | str : String → RVal
  | int : Int → RVal
  | num : RVal
  | boolean : Bool → RVal
  | ref : RecordID → RVal
  | asset : String → RVal
  | geo : RVal
  | seqVal : RVal
  | dateTime : RVal
  deriving DecidableEq, Repr

/-- The schema type inferred for a field value. -/
def RVal.inferType : RVal → RType
  | .str _ => .typeString
  | .int _ => .typeInteger
  | .num => .typeNumber
  | .boolean _ => .typeBoolean
  | .ref _ => .typeRef
  | .asset _ => .typeAsset
  | .geo => .typeGeo
  | .seqVal => .typeSequence
  | .dateTime => .typeDateTime

/-- `skydb.Record`: identity plus named field values (unique field names). -/
structure Record where
  id : RecordID
  fields : List (String × RVal)
  deriving DecidableEq, Repr

/-- The stored schema: declared type per (record type, field name). -/
abbrev Schema := List ((String × String) × RType)

/-- First declared type for field `f` of record type `rt`, if any. -/
def schemaLookup (sch : Schema) (rt f : String) : Option RType :=
  match sch with
  | [] => none
  | ((k, t) :: rest) => if k = (rt, f) then some t else schemaLookup rest rt f

/-! ## Serialized result entries (package `handler`) -/

/-- One entry of a handler's serialized result array. -/
inductive ResultItem where
  /-- `newSerializedError(id, err)`: the error object
  with `_type:"error"` and, when `id` is non-empty, `_id`/`_recordType`/`_recordID`. -/
  | serializedError : String → SkyError → ResultItem
  /-- `resultFilter.JSONResult(record)`: the filtered record object. -/
  | jsonRecord : Record → ResultItem
  /-- The delete-success tombstone, carrying
  `_id = recordID`, `_recordID = recordID.Key`, `_recordType = recordID.Type`
  and `_type = "record"`. -/
  | tombstone : RecordID → ResultItem

/-! ## Save payload (`recordSavePayload`) -/

/-- One element of the incoming `records` array, as seen through the external
deserializer `skyconv.JSONRecord.FromMap` (package `skyconv`, outside these
sources): either it deserializes to a record or it fails with an error
message. -/
inductive RawRecordMap where
  | valid : Record → RawRecordMap
  | malformed : String → RawRecordMap
  deriving DecidableEq, Repr

/-- The decoded `recordSavePayload` fields set by mapstructure. -/
structure RecordSavePayload where
  atomic : Bool
  rawMaps : List RawRecordMap
  deriving DecidableEq, Repr

/-- An element of `recordSavePayload.IncomingItems`: a de-serialization error
or the id of a successfully de-serialized record. -/
inductive IncomingItem where
  | errItem : SkyError → IncomingItem
  | recID : RecordID → IncomingItem

/-- The state `recordSavePayload.Validate` leaves on the payload struct. -/
structure ValidatedSave where
  clean : Bool
  errs : List SkyError
  incomingItems : List IncomingItem
  records : List Record

/-- The per-element loop of `recordSavePayload.Validate`: a malformed map
marks the payload unclean and contributes an `InvalidArgument` error; a valid
map contributes its record id and the record itself.  (`SanitizeForInput`,
which strips caller-set system metadata, is the identity on this record
model, which carries no system metadata.) -/
def validateSaveAux : List RawRecordMap → ValidatedSave
  | [] => ⟨true, [], [], []⟩
  | .malformed msg :: rest =>
    let v := validateSaveAux rest
    ⟨false, newError .InvalidArgument msg :: v.errs,
      .errItem (newError .InvalidArgument msg) :: v.incomingItems, v.records⟩
  | .valid r :: rest =>
    let v := validateSaveAux rest
    ⟨v.clean, v.errs, .recID r.id :: v.incomingItems, r :: v.records⟩

/-- `recordSavePayload.Validate`: rejects an empty batch with
`InvalidArgument`, otherwise classifies each incoming map. -/
def recordSavePayloadValidate (p : RecordSavePayload) : Except SkyError ValidatedSave :=
  if p.rawMaps.length = 0 then
    .error (newInvalidArgument "expected list of record" ["records"])
  else
    .ok (validateSaveAux p.rawMaps)

/-! ## Fetch payload (`recordFetchPayload`) -/

/-- `strings.SplitN(s, "/", 2)`: one element when `s` has no `/`, otherwise
the part before the first `/` and the remainder. -/
def splitN2 (s : String) : List String :=
  match s.splitOn "/" with
  | [] => [s]
  | [x] => [x]
  | x :: rest => [x, String.intercalate "/" rest]

/-- The decoded `recordFetchPayload` fields set by mapstructure. -/
structure RecordFetchPayload where
  rawIDs : List String
  deriving DecidableEq, Repr

/-- The per-id loop of `recordFetchPayload.Validate`: each raw id must be of
the form `type/key`. -/
def parseFetchIDs : List String → Except SkyError (List RecordID)
  | [] => .ok []
  | rawID :: rest =>
    match splitN2 rawID with
    | [x, y] => (parseFetchIDs rest).map (fun ids => ⟨x, y⟩ :: ids)
    | _ => .error (newInvalidArgument ("invalid id format: " ++ rawID) ["ids"])

/-- `recordFetchPayload.Validate`. -/
def recordFetchPayloadValidate (p : RecordFetchPayload) : Except SkyError (List RecordID) :=
  if p.rawIDs.length = 0 then
    .error (newInvalidArgument "expected list of id" ["ids"])
  else
    parseFetchIDs p.rawIDs

/-! ## Delete payload (`recordDeletePayload`) -/

/-- `recordDeleteRecordPayload`: `_recordType` / `_recordID` pair. -/
structure RecordDeleteRecordPayload where
  type : String
  key : String
  deriving DecidableEq, Repr

/-- `recordDeleteRecordPayload.RecordID()`. -/
def RecordDeleteRecordPayload.recordID (p : RecordDeleteRecordPayload) : RecordID :=
  ⟨p.type, p.key⟩

/-- The decoded `recordDeletePayload` fields set by mapstructure. -/
structure RecordDeletePayload where
  deprecatedIDs : List String
  rawRecords : List RecordDeleteRecordPayload
  atomic : Bool
  deriving DecidableEq, Repr

/-- The deprecated-`ids` loop of `recordDeletePayload.Validate`. -/
def parseDeprecatedIDs : List String → Except SkyError (List RecordID)
  | [] => .ok []
  | rawID :: rest =>
    match splitN2 rawID with
    | [x, y] => (parseDeprecatedIDs rest).map (fun ids => ⟨x, y⟩ :: ids)
    | _ => .error (newInvalidArgument
        ("record: \"_id\" should be of format \x27\x7btype\x7d/\x7bid\x7d\x27, got \"" ++
          rawID ++ "\"")
        ["ids"])

/-- `recordDeletePayload.Validate`: prefers `records`, falls back to the
deprecated `ids` field, and rejects a request with neither. -/
def recordDeletePayloadValidate (p : RecordDeletePayload) : Except SkyError (List RecordID) :=
  if 0 < p.rawRecords.length then
    .ok (p.rawRecords.map RecordDeleteRecordPayload.recordID)
  else if 0 < p.deprecatedIDs.length then
    parseDeprecatedIDs p.deprecatedIDs
  else
    .error (newInvalidArgument "expected list of records" ["records"])

/-! ## Store model -/

/-- State owned by the abstract record store: stored schema and persisted
records. -/
structure StoreState where
  schema : Schema
  records : List Record

/-- Events observable at the store boundary, in order of occurrence. -/
inductive Event where
  | schemaExtended
  | txBegin
  | txCommit
  | txRollback
  | itemSave : RecordID → Event
  | itemDelete : RecordID → Event
  | storeQuery : String → Event
  | storeFetch : RecordID → Event
  deriving DecidableEq, Repr

/-- Modelled from the spec: the verdicts of the Field ACL evaluator (§4.1,
package `recordutil`, outside these sources) for the acting principal — the
set of (record type, field) pairs the principal may NOT read.  The rule
table and its most-specific-match resolution are collapsed to their
verdict, which is all the embedded handlers consume. -/
abbrev FieldACL := List (String × String)

/-- The database connection: `Conn.GetRecordFieldAccess()` either yields the
field ACL table or fails. -/
structure Conn where
  fieldACL : Except String FieldACL

/-- Capabilities and per-item outcomes of the pluggable record store. -/
structure Database where
  /-- `Database.IsReadOnly()`. -/
  readOnly : Bool
  /-- whether the store implements `skydb.Transactional`. -/
  transactional : Bool
  /-- per-item result of saving a record with this id (`none` = success). -/
  saveOutcome : RecordID → Option SkyError
  /-- per-item result of deleting this record id (`none` = success). -/
  deleteOutcome : RecordID → Option SkyError
  /-- a failure of the transaction layer itself (at commit), if any. -/
  txFailure : Option String
  /-- result of `db.Query`. -/
  queryOutcome : Except String (List Record)
  /-- per-id result of `fetcher.FetchRecord`. -/
  fetchOutcome : RecordID → Except SkyError Record

/-! ## Modify layer (`recordutil` inner handlers and `atomicModifyFunc`) -/

/-- The fields of `recordutil.RecordModifyRequest` the modify layer reads. -/
structure RecordModifyRequest where
  atomic : Bool
  recordsToSave : List Record
  recordIDsToDelete : List RecordID

/-- `recordutil.RecordModifyResponse` (`ErrMap`, `SavedRecords`) together with
the overall error, the resulting store state and the emitted events. -/
structure ModifyResult where
  err : Option SkyError
  errMap : List (RecordID × SkyError)
  savedRecords : List Record
  st : StoreState
  events : List Event

/-- The type of `recordModifyFunc`, with the store threaded explicitly. -/
abbrev RecordModifyFunc := Database → RecordModifyRequest → StoreState → ModifyResult

/-- What the per-item save loop accumulates. -/
structure SaveLoopOut where
  errMap : List (RecordID × SkyError)
  savedRecords : List Record
  st : StoreState
  events : List Event

/-- Modelled from the spec: the per-item loop of
`recordutil.RecordSaveHandler` (package `recordutil`, outside these
sources) — items execute synchronously in input order; a failing item is
recorded in `ErrMap` and does not block siblings; a successful item is
persisted and appended to `SavedRecords`, preserving relative order. -/
def runSaveItems (db : Database) (st : StoreState) : List Record → SaveLoopOut
  | [] => ⟨[], [], st, []⟩
  | r :: rest =>
    match db.saveOutcome r.id with
    | some e =>
      let o := runSaveItems db st rest
      { o with errMap := (r.id, e) :: o.errMap }
    | none =>
      let o := runSaveItems db { st with records := st.records ++ [r] } rest
      { o with savedRecords := r :: o.savedRecords,
               events := .itemSave r.id :: o.events }

/-- Modelled from the spec: `recordutil.RecordSaveHandler` (package
`recordutil`, outside these sources) — runs the per-item loop and, in
atomic mode, returns a non-nil error when any item failed so that the
surrounding transaction rolls back. -/
def recordutilRecordSaveHandler : RecordModifyFunc := fun db req st =>
  let o := runSaveItems db st req.recordsToSave
  { err := if req.atomic && !o.errMap.isEmpty then
      some (newError .UnexpectedError "atomic operation failed")
    else none,
    errMap := o.errMap, savedRecords := o.savedRecords, st := o.st, events := o.events }

/-- What the per-item delete loop accumulates. -/
structure DeleteLoopOut where
  errMap : List (RecordID × SkyError)
  st : StoreState
  events : List Event

/-- Modelled from the spec: the per-item loop of
`recordutil.RecordDeleteHandler` (package `recordutil`, outside these
sources) — deletes execute in input order; failures populate `ErrMap`
without blocking siblings. -/
def runDeleteItems (db : Database) (st : StoreState) : List RecordID → DeleteLoopOut
  | [] => ⟨[], st, []⟩
  | id :: rest =>
    match db.deleteOutcome id with
    | some e =>
      let o := runDeleteItems db st rest
      { o with errMap := (id, e) :: o.errMap }
    | none =>
      let o := runDeleteItems db
        { st with records := st.records.filter (fun r => r.id ≠ id) } rest
      { o with events := .itemDelete id :: o.events }

/-- Modelled from the spec: `recordutil.RecordDeleteHandler` (package
`recordutil`, outside these sources). -/
def recordutilRecordDeleteHandler : RecordModifyFunc := fun db req st =>
  let o := runDeleteItems db st req.recordIDsToDelete
  { err := if req.atomic && !o.errMap.isEmpty then
      some (newError .UnexpectedError "atomic operation failed")
    else none,
    errMap := o.errMap, savedRecords := [], st := o.st, events := o.events }

/-- The `info` entry built for the transaction error. -/
def GoErr.toInfoVal : GoErr → InfoVal
  | .sky e => .err e
  | .plain m => .goError m

/-- `atomicModifyFunc`: requires the store to implement
`skydb.Transactional`, failing with `NotSupported` without calling the
inner mutation function; otherwise runs the inner function inside
`skydb.WithTransaction` (modelled from the spec: begin, run, commit on
success, roll back when the inner function or the transaction layer
fails), then reports a single `AtomicOperationFailure` carrying either the
per-item error map or the wrapped transaction error. -/
def atomicModifyFunc (mFunc : RecordModifyFunc) : RecordModifyFunc := fun db req st =>
  if !db.transactional then
    { err := some (newError .NotSupported "database impl does not support transaction"),
      errMap := [], savedRecords := [], st := st, events := [] }
  else
    let r := mFunc db req st
    let txErr : Option GoErr :=
      match r.err with
      | some e => some (.sky e)
      | none => db.txFailure.map .plain
    let rolledBack := txErr.isSome
    let stAfter := if rolledBack then st else r.st
    let events := .txBegin :: r.events ++ [if rolledBack then Event.txRollback else Event.txCommit]
    if !r.errMap.isEmpty then
      { err := some (newErrorWithInfo .AtomicOperationFailure
          "Atomic Operation rolled back due to one or more errors"
          (r.errMap.map fun p => (p.1.toGoString, InfoVal.err p.2))),
        errMap := r.errMap, savedRecords := r.savedRecords, st := stAfter, events := events }
    else
      match txErr with
      | some t =>
        { err := some (newErrorWithInfo .AtomicOperationFailure
            "Atomic Operation rolled back due to an error"
            [("innerError", t.toInfoVal)]),
          errMap := r.errMap, savedRecords := r.savedRecords, st := stAfter, events := events }
      | none =>
        { err := none, errMap := r.errMap, savedRecords := r.savedRecords,
          st := stAfter, events := events }

/-! ## Schema evolution (`recordutil.ExtendRecordSchema`) -/

/-- Modelled from the spec: the per-field merge of
`recordutil.ExtendRecordSchema` (§4.5, package `recordutil`, outside these
sources) — a previously-unseen field is added with its inferred type; a
matching declared type is kept; a conflicting declared type rejects the
batch with `IncompatibleSchema` naming the field, leaving the stored
schema untouched. -/
def extendFields (rt : String) : Schema → Bool → List (String × RVal) →
    Except GoErr (Bool × Schema)
  | sch, updated, [] => .ok (updated, sch)
  | sch, updated, (f, v) :: rest =>
    match schemaLookup sch rt f with
    | none => extendFields rt (((rt, f), v.inferType) :: sch) true rest
    | some t =>
      if v.inferType = t then extendFields rt sch updated rest
      else .error (.sky (newError .IncompatibleSchema
          ("field " ++ f ++ " of record type " ++ rt ++
            " conflicts with the declared schema type")))

/-- Modelled from the spec: the per-record loop of
`recordutil.ExtendRecordSchema`. -/
def extendRecords : Schema → Bool → List Record → Except GoErr (Bool × Schema)
  | sch, updated, [] => .ok (updated, sch)
  | sch, updated, r :: rest =>
    match extendFields r.id.type sch updated r.fields with
    | .error e => .error e
    | .ok (u, sch') => extendRecords sch' u rest

/-- Modelled from the spec: `recordutil.ExtendRecordSchema` — a pure merge of
the incoming records' inferred field types into the schema; the stored
schema is replaced only when the whole merge succeeds. -/
def extendRecordSchema (sch : Schema) (records : List Record) :
    Except GoErr (Bool × Schema) :=
  extendRecords sch false records

/-! ## Result assembly (`makeResultsFromIncomingItem`) -/

/-- Go map lookup on `resp.ErrMap`. -/
def errMapLookup : List (RecordID × SkyError) → RecordID → Option SkyError
  | [], _ => none
  | (k, e) :: rest, id => if k = id then some e else errMapLookup rest id

/-- The loop body of `RecordSaveHandler.makeResultsFromIncomingItem`: a
de-serialization error keeps an empty `_id`; a record id found in `ErrMap`
becomes a serialized error; otherwise the next entry of `SavedRecords` is
emitted (Go indexes `SavedRecords` with a running cursor; the
out-of-range access Go would panic on cannot occur for responses produced
by the save pipeline and is modelled by a default record). -/
def makeResultsAux (errMap : List (RecordID × SkyError)) (savedRecords : List Record) :
    List IncomingItem → Nat → List ResultItem
  | [], _ => []
  | .errItem e :: rest, idx =>
    .serializedError "" e :: makeResultsAux errMap savedRecords rest idx
  | .recID id :: rest, idx =>
    match errMapLookup errMap id with
    | some e => .serializedError id.toGoString e :: makeResultsAux errMap savedRecords rest idx
    | none =>
      .jsonRecord (savedRecords.getD idx ⟨⟨"", ""⟩, []⟩) ::
        makeResultsAux errMap savedRecords rest (idx + 1)

/-- `RecordSaveHandler.makeResultsFromIncomingItem`. -/
def makeResultsFromIncomingItem (items : List IncomingItem)
    (errMap : List (RecordID × SkyError)) (savedRecords : List Record) : List ResultItem :=
  makeResultsAux errMap savedRecords items 0

/-- The outcome a non-atomic save owes the i-th incoming item, as a function
of that item alone: its de-serialization error, its per-item save error, or
the saved record.  Stated from the spec's per-item independence wording, to
be compared with what the save pipeline actually produces. -/
def expectedSaveResult (db : Database) : RawRecordMap → ResultItem
  | .malformed msg => .serializedError "" (newError .InvalidArgument msg)
  | .valid rec =>
    match db.saveOutcome rec.id with
    | some e => .serializedError rec.id.toGoString e
    | none => .jsonRecord rec

/-! ## Handlers -/

/-- What a handler leaves in `router.Response`, plus the resulting store
state and the store-boundary events. -/
structure HandleResult where
  err : Option SkyError
  result : Option (List ResultItem)
  st : StoreState
  events : List Event

/-- `RecordSaveHandler.Handle`: decode/validate, reject read-only databases,
build the result filter (which reads the field ACL from the connection),
reject atomic batches with de-serialization failures, extend the record
schema outside any transaction, run the (atomic or plain) save function,
and assemble the per-item results. -/
def recordSaveHandle (db : Database) (conn : Conn) (p : RecordSavePayload)
    (st : StoreState) : HandleResult :=
  match recordSavePayloadValidate p with
  | .error e => ⟨some e, none, st, []⟩
  | .ok v =>
    if db.readOnly then
      ⟨some (newError .NotSupported "modifying the selected database is not supported"),
        none, st, []⟩
    else
      match conn.fieldACL with
      | .error m => ⟨some (makeError m), none, st, []⟩
      | .ok _ =>
        if p.atomic && !v.clean then
          ⟨some (newErrorWithInfo .InvalidArgument "fails to de-serialize records"
            [("arguments", .str "records"), ("errors", .errList v.errs)]), none, st, []⟩
        else
          match extendRecordSchema st.schema v.records with
          | .error (.sky e) => ⟨some e, none, st, []⟩
          | .error (.plain _) =>
            ⟨some (newError .IncompatibleSchema "failed to migrate record schema"),
              none, st, []⟩
          | .ok (updated, sch') =>
            let st1 : StoreState := { st with schema := sch' }
            let evs0 : List Event := if updated then [.schemaExtended] else []
            let req : RecordModifyRequest := ⟨p.atomic, v.records, []⟩
            let saveFunc : RecordModifyFunc :=
              if p.atomic then atomicModifyFunc recordutilRecordSaveHandler
              else recordutilRecordSaveHandler
            let r := saveFunc db req st1
            match r.err with
            | some e => ⟨some e, none, r.st, evs0 ++ r.events⟩
            | none =>
              ⟨none,
                some (makeResultsFromIncomingItem v.incomingItems r.errMap r.savedRecords),
                r.st, evs0 ++ r.events⟩

/-- `RecordDeleteHandler.Handle`: decode/validate, reject read-only
databases, run the (atomic or plain) delete function, and emit a tombstone
or serialized error per input record id, in input order. -/
def recordDeleteHandle (db : Database) (p : RecordDeletePayload)
    (st : StoreState) : HandleResult :=
  match recordDeletePayloadValidate p with
  | .error e => ⟨some e, none, st, []⟩
  | .ok parsedRecordIDs =>
    if db.readOnly then
      ⟨some (newError .NotSupported "modifying the selected database is not supported"),
        none, st, []⟩
    else
      let req : RecordModifyRequest := ⟨p.atomic, [], parsedRecordIDs⟩
      let deleteFunc : RecordModifyFunc :=
        if p.atomic then atomicModifyFunc recordutilRecordDeleteHandler
        else recordutilRecordDeleteHandler
      let r := deleteFunc db req st
      match r.err with
      | some e => ⟨some e, none, r.st, r.events⟩
      | none =>
        let results := parsedRecordIDs.map (fun recordID =>
          match errMapLookup r.errMap recordID with
          | some e => ResultItem.serializedError recordID.toGoString e
          | none => ResultItem.tombstone recordID)
        ⟨none, some results, r.st, r.events⟩

/-- `RecordFetchHandler.Handle`: decode/validate, build the result filter,
then fetch each record id in order, emitting the filtered record or a
serialized error per id (`fetcher.FetchRecord` lives in `recordutil`,
outside these sources; its per-id outcome is a store parameter). -/
def recordFetchHandle (db : Database) (conn : Conn) (p : RecordFetchPayload)
    (st : StoreState) : HandleResult :=
  match recordFetchPayloadValidate p with
  | .error e => ⟨some e, none, st, []⟩
  | .ok ids =>
    match conn.fieldACL with
    | .error m => ⟨some (makeError m), none, st, []⟩
    | .ok _ =>
      let results := ids.map fun id =>
        match db.fetchOutcome id with
        | .error e => ResultItem.serializedError id.toGoString e
        | .ok r => ResultItem.jsonRecord r
      ⟨none, some results, st, ids.map Event.storeFetch⟩

/-! ## Query handler -/

/-- The parts of a decoded `skydb.Query` the access-control walk consumes:
the record type and the field paths referenced anywhere in the predicate
tree, in depth-first traversal order. -/
structure QueryData where
  recordType : String
  predicateFields : List String

/-- What the query handler produces, plus whether the ACL walk ran, whether
`db.Query` was issued, and whether the field-ACL fetch blew up (Go would
panic there). -/
structure QueryHandleResult where
  err : Option SkyError
  result : Option (List ResultItem)
  storeQueried : Bool
  walkRan : Bool
  aclFetchFailed : Bool

/-- Modelled from the spec: `queryAccessVisitor` (outside these sources) —
a depth-first walk over the predicate's field references; the first field
the principal may not read short-circuits the walk with a single
`PermissionDenied` error naming the field and record type. -/
def visitorError (acl : FieldACL) (rt : String) : List String → Option SkyError
  | [] => none
  | f :: rest =>
    if (rt, f) ∈ acl then
      some (newError .PermissionDenied
        ("cannot read field " ++ f ++ " of record type " ++ rt))
    else visitorError acl rt rest

/-- The part of `RecordQueryHandler.Handle` after the ACL walk: issue
`db.Query` and serialize the resulting records (asset completion, eager
loading and field filtering are external `recordutil` post-processing,
collapsed into `jsonRecord` entries). -/
def queryProceed (db : Database) (walkRan : Bool) : QueryHandleResult :=
  match db.queryOutcome with
  | .error m => ⟨some (makeError m), none, true, walkRan, false⟩
  | .ok records => ⟨none, some (records.map ResultItem.jsonRecord), true, walkRan, false⟩

/-- `RecordQueryHandler.Handle`: read the field ACL, run the predicate ACL
walk unless the principal bypasses access control, and only query the
store once the walk finds no denial. -/
def recordQueryHandle (db : Database) (conn : Conn) (bypass : Bool)
    (q : QueryData) : QueryHandleResult :=
  match conn.fieldACL with
  | .error _ => ⟨none, none, false, false, true⟩
  | .ok acl =>
    if !bypass then
      match visitorError acl q.recordType q.predicateFields with
      | some e => ⟨some e, none, false, true, false⟩
      | none => queryProceed db true
    else
      queryProceed db false

end Skygear

namespace Push

/-! ## Push routing (`src/push/push.go`) -/

/-- `skydb.Device`: only the `Type` tag matters to `RouteSender`. -/
structure Device where
  type : String
  deriving DecidableEq, Repr

/-- A `push.Mapper`: carries a string-keyed map (the notification payload). -/
structure Mapper where
  map : List (String × String)
  deriving DecidableEq, Repr

/-- `push.EmptyMapper`: a Mapper whose `Map()` is the empty map. -/
def emptyMapper : Mapper := ⟨[]⟩

/-- A `push.Sender`: its `Send(m, device)` method, returning `nil` (`none`)
on success or a Go error message. -/
def Sender := Mapper → Device → Option String

/-- `push.RouteSender`: a lookup table from service type tag to sender. -/
structure RouteSender where
  senders : List (String × Sender)

/-- `push.NewRouteSender`. -/
def newRouteSender : RouteSender := ⟨[]⟩

/-- `RouteSender.Route`: register a sender under a service tag
(Go map insert: a later registration shadows an earlier one). -/
def RouteSender.route (s : RouteSender) (service : String) (sender : Sender) :
    RouteSender := ⟨(service, sender) :: s.senders⟩

/-- Go map lookup on an association list of senders. -/
def sendersLookup : List (String × Sender) → String → Option Sender
  | [], _ => none
  | (k, v) :: rest, service => if k = service then some v else sendersLookup rest service

/-- Go map lookup on the sender table. -/
def RouteSender.lookup (s : RouteSender) (service : String) : Option Sender :=
  sendersLookup s.senders service

/-- `RouteSender.Len`. -/
def RouteSender.len (s : RouteSender) : Nat := s.senders.length

/-- `RouteSender.Send`: look up the sender registered for `device.Type`;
if absent, return a descriptive error naming the type; otherwise delegate. -/
def RouteSender.send (s : RouteSender) (m : Mapper) (device : Device) :
    Option String :=
  match s.lookup device.type with
  | none => some ("cannot find sender with type = " ++ device.type)
  | some sender => sender m device

/-! ### Fixtures used by the witnesses -/

/-- A sender that always succeeds. -/
def okSender : Sender := fun _ _ => none

/-- A routing table with one sender registered under `aps`. -/
def routeW : RouteSender := newRouteSender.route "aps" okSender

end Push

namespace Skygear

/-! ## Concrete fixtures used by the witnesses -/

/-- A plain record store: transactional, every operation succeeds. -/
def dbOk : Database :=
  { readOnly := false, transactional := true,
    saveOutcome := fun _ => none, deleteOutcome := fun _ => none,
    txFailure := none, queryOutcome := .ok [],
    fetchOutcome := fun _ => .error (newError .UnexpectedError "record not found") }

/-- A store without the transaction capability. -/
def dbNoTx : Database := { dbOk with transactional := false }

/-- A store that fails to save any record with key `bad`. -/
def dbBadSave : Database :=
  { dbOk with saveOutcome := fun id =>
      if id.key = "bad" then some (newError .UnexpectedError "save failed") else none }

/-- A store that fails to delete any record with key `bad`. -/
def dbBadDelete : Database :=
  { dbOk with deleteOutcome := fun id =>
      if id.key = "bad" then some (newError .UnexpectedError "delete failed") else none }

/-- A store whose transaction layer fails at commit. -/
def dbTxFail : Database := { dbOk with txFailure := some "commit failed" }

/-- A connection whose field-ACL fetch succeeds with an empty table. -/
def connOk : Conn := ⟨.ok []⟩

/-- An empty store state. -/
def stEmpty : StoreState := ⟨[], []⟩

/-- A well-formed note record. -/
def noteA : Record := ⟨⟨"note", "a"⟩, [("content", .str "hello")]⟩

/-- A note record whose save `dbBadSave` rejects. -/
def noteBad : Record := ⟨⟨"note", "bad"⟩, []⟩

/-- A store state whose schema declares `note.age` as integer. -/
def stAge : StoreState := ⟨[(("note", "age"), RType.typeInteger)], []⟩

/-- A note whose `age` field carries a string. -/
def noteAge : Record := ⟨⟨"note", "1"⟩, [("age", .str "twelve")]⟩

end Skygear

open Skygear Push

/-! ## Supporting lemmas -/

/-- The coordinator's behaviour on a store without the transaction
capability: fail up front, touch nothing. -/
theorem atomicModifyFunc_no_transaction (mFunc : RecordModifyFunc) (db : Database)
    (req : RecordModifyRequest) (st : StoreState) (hdb : db.transactional = false) :
    atomicModifyFunc mFunc db req st =
      ⟨some (newError .NotSupported "database impl does not support transaction"),
        [], [], st, []⟩ := by
  simp [atomicModifyFunc, hdb]

/-- In non-atomic mode the inner delete handler returns no overall error. -/
theorem recordutilRecordDeleteHandler_nonatomic (db : Database)
    (req : RecordModifyRequest) (st : StoreState) (h : req.atomic = false) :
    recordutilRecordDeleteHandler db req st =
      ⟨none, (runDeleteItems db st req.recordIDsToDelete).errMap, [],
        (runDeleteItems db st req.recordIDsToDelete).st,
        (runDeleteItems db st req.recordIDsToDelete).events⟩ := by
  simp [recordutilRecordDeleteHandler, h]

/-! ## Claim theorems -/

/-- C9: for every notification send through `RouteSender`, if no sender is
registered for the device's type tag, `Send` returns a descriptive error
naming the missing type rather than panicking; if a sender is registered,
`Send` delegates to that sender and returns its result. -/
theorem claim_C9 (s : RouteSender) (m : Mapper) (device : Device) :
    (s.lookup device.type = none →
      s.send m device = some ("cannot find sender with type = " ++ device.type)) ∧
    (∀ f, s.lookup device.type = some f → s.send m device = f m device) := by
  constructor
  · intro h
    simp [RouteSender.send, h]
  · intro f h
    simp [RouteSender.send, h]

/-- Witness for C9: with only an `aps` sender registered, sending to a `gcm`
device yields the descriptive error, and sending to an `aps` device
delegates to the registered sender. -/
theorem claim_C9_witness :
    routeW.send emptyMapper ⟨"gcm"⟩ = some ("cannot find sender with type = " ++ "gcm") ∧
    routeW.send emptyMapper ⟨"aps"⟩ = okSender emptyMapper ⟨"aps"⟩ :=
  ⟨(claim_C9 routeW emptyMapper ⟨"gcm"⟩).1 rfl,
   (claim_C9 routeW emptyMapper ⟨"aps"⟩).2 okSender rfl⟩

/-- C10: a save with zero records, a fetch with zero ids, and a delete with
neither records nor ids are each rejected with an `InvalidArgument` error
during payload validation, before any store access or mutation (no result,
no state change, no store events). -/
theorem claim_C10 (db : Database) (conn : Conn) (st : StoreState)
    (ps : RecordSavePayload) (pf : RecordFetchPayload) (pd : RecordDeletePayload)
    (hs : ps.rawMaps = []) (hf : pf.rawIDs = [])
    (hd1 : pd.rawRecords = []) (hd2 : pd.deprecatedIDs = []) :
    recordSaveHandle db conn ps st =
      ⟨some (newInvalidArgument "expected list of record" ["records"]), none, st, []⟩ ∧
    recordFetchHandle db conn pf st =
      ⟨some (newInvalidArgument "expected list of id" ["ids"]), none, st, []⟩ ∧
    recordDeleteHandle db pd st =
      ⟨some (newInvalidArgument "expected list of records" ["records"]), none, st, []⟩ := by
  refine ⟨?_, ?_, ?_⟩
  · simp [recordSaveHandle, recordSavePayloadValidate, hs]
  · simp [recordFetchHandle, recordFetchPayloadValidate, hf]
  · simp [recordDeleteHandle, recordDeletePayloadValidate, hd1, hd2]

/-- Witness for C10: the three empty payloads, against a healthy store. -/
theorem claim_C10_witness :
    recordSaveHandle dbOk connOk ⟨false, []⟩ stEmpty =
      ⟨some (newInvalidArgument "expected list of record" ["records"]), none, stEmpty, []⟩ ∧
    recordFetchHandle dbOk connOk ⟨[]⟩ stEmpty =
      ⟨some (newInvalidArgument "expected list of id" ["ids"]), none, stEmpty, []⟩ ∧
    recordDeleteHandle dbOk ⟨[], [], false⟩ stEmpty =
      ⟨some (newInvalidArgument "expected list of records" ["records"]), none, stEmpty, []⟩ :=
  claim_C10 dbOk connOk stEmpty ⟨false, []⟩ ⟨[]⟩ ⟨[], [], false⟩ rfl rfl rfl rfl

/-- C1: for every modify request (save or delete) with the atomic flag set,
if the underlying database does not implement the transaction capability,
the operation fails with a `NotSupported` error and no per-item mutation is
attempted: the coordinator never invokes the inner mutation function, and
both handlers leave the persisted records untouched and emit no mutation
events. -/
theorem claim_C1 (db : Database) (hdb : db.transactional = false) :
    (∀ (mFunc : RecordModifyFunc) (req : RecordModifyRequest) (st : StoreState),
      atomicModifyFunc mFunc db req st =
        ⟨some (newError .NotSupported "database impl does not support transaction"),
          [], [], st, []⟩) ∧
    (∀ (conn : Conn) (acl : FieldACL) (ps : RecordSavePayload) (st : StoreState)
        (v : ValidatedSave) (u : Bool) (sch' : Schema),
      recordSavePayloadValidate ps = .ok v → ps.atomic = true → v.clean = true →
      db.readOnly = false → conn.fieldACL = .ok acl →
      extendRecordSchema st.schema v.records = .ok (u, sch') →
      recordSaveHandle db conn ps st =
        ⟨some (newError .NotSupported "database impl does not support transaction"),
          none, ⟨sch', st.records⟩, if u then [.schemaExtended] else []⟩) ∧
    (∀ (pd : RecordDeletePayload) (st : StoreState) (ids : List RecordID),
      recordDeletePayloadValidate pd = .ok ids → pd.atomic = true →
      db.readOnly = false →
      recordDeleteHandle db pd st =
        ⟨some (newError .NotSupported "database impl does not support transaction"),
          none, st, []⟩) := by
  refine ⟨fun mFunc req st => atomicModifyFunc_no_transaction mFunc db req st hdb,
    ?_, ?_⟩
  · intro conn acl ps st v u sch' hval hat hclean hro hacl hext
    simp only [recordSaveHandle, hval, hro, hacl, hat, hclean, hext,
      Bool.not_true, Bool.and_false, Bool.false_eq_true, if_false, if_true]
    rw [atomicModifyFunc_no_transaction _ db _ _ hdb]
    simp
  · intro pd st ids hval hat hro
    simp only [recordDeleteHandle, hval, hro, hat, Bool.false_eq_true, if_false, if_true]
    rw [atomicModifyFunc_no_transaction _ db _ _ hdb]

/-- Witness for C1: an atomic save of one note and an atomic delete of one
record id against a non-transactional store. -/
theorem claim_C1_witness :
    recordSaveHandle dbNoTx connOk ⟨true, [.valid noteA]⟩ stEmpty =
      ⟨some (newError .NotSupported "database impl does not support transaction"),
        none, ⟨[((noteA.id.type, "content"), RType.typeString)], []⟩,
        [.schemaExtended]⟩ ∧
    recordDeleteHandle dbNoTx ⟨[], [⟨"note", "a"⟩], true⟩ stEmpty =
      ⟨some (newError .NotSupported "database impl does not support transaction"),
        none, stEmpty, []⟩ :=
  ⟨(claim_C1 dbNoTx rfl).2.1 connOk [] ⟨true, [.valid noteA]⟩ stEmpty
      (validateSaveAux [.valid noteA]) true
      [((noteA.id.type, "content"), RType.typeString)] rfl rfl rfl rfl rfl rfl,
   (claim_C1 dbNoTx rfl).2.2 ⟨[], [⟨"note", "a"⟩], true⟩ stEmpty [⟨"note", "a"⟩]
      rfl rfl rfl⟩

/-- C2: every non-atomic delete batch of N record ids that passes validation
produces a result array of exactly N entries, the i-th entry being either
the tombstone of the i-th input record id or a serialized error naming it. -/
theorem claim_C2 (db : Database) (p : RecordDeletePayload) (st : StoreState)
    (ids : List RecordID)
    (hval : recordDeletePayloadValidate p = .ok ids)
    (hro : db.readOnly = false) (hat : p.atomic = false) :
    ∃ results, (recordDeleteHandle db p st).result = some results ∧
      results.length = ids.length ∧
      ∀ i, i < ids.length →
        ∃ id, ids[i]? = some id ∧
          (results[i]? = some (ResultItem.tombstone id) ∨
           ∃ e, results[i]? = some (ResultItem.serializedError id.toGoString e)) := by
  have hh : recordDeleteHandle db p st =
      ⟨none, some (ids.map fun recordID =>
          match errMapLookup (runDeleteItems db st ids).errMap recordID with
          | some e => ResultItem.serializedError recordID.toGoString e
          | none => ResultItem.tombstone recordID),
        (runDeleteItems db st ids).st, (runDeleteItems db st ids).events⟩ := by
    simp only [recordDeleteHandle, hval, hro, hat, Bool.false_eq_true, if_false]
    rw [recordutilRecordDeleteHandler_nonatomic db ⟨false, [], ids⟩ st rfl]
  refine ⟨_, by rw [hh], by simp, ?_⟩
  intro i hi
  refine ⟨ids[i], List.getElem?_eq_getElem hi, ?_⟩
  rw [List.getElem?_map, List.getElem?_eq_getElem hi, Option.map_some']
  cases h : errMapLookup (runDeleteItems db st ids).errMap ids[i] with
  | none => exact Or.inl rfl
  | some e => exact Or.inr ⟨e, rfl⟩

/-- Witness for C2: a non-atomic delete of two ids, one of which the store
fails to delete. -/
theorem claim_C2_witness :
    ∃ results,
      (recordDeleteHandle dbBadDelete
        ⟨[], [⟨"note", "a"⟩, ⟨"note", "bad"⟩], false⟩ stEmpty).result = some results ∧
      results.length = ([⟨"note", "a"⟩, ⟨"note", "bad"⟩] : List RecordID).length ∧
      ∀ i, i < ([⟨"note", "a"⟩, ⟨"note", "bad"⟩] : List RecordID).length →
        ∃ id, ([⟨"note", "a"⟩, ⟨"note", "bad"⟩] : List RecordID)[i]? = some id ∧
          (results[i]? = some (ResultItem.tombstone id) ∨
           ∃ e, results[i]? = some (ResultItem.serializedError id.toGoString e)) :=
  claim_C2 dbBadDelete ⟨[], [⟨"note", "a"⟩, ⟨"note", "bad"⟩], false⟩ stEmpty
    [⟨"note", "a"⟩, ⟨"note", "bad"⟩] rfl rfl rfl

/-- Counterexample to C3 as stated: an atomic save batch containing a valid
note and a malformed note is rejected with a single error whose code is
`InvalidArgument`, not `AtomicOperationFailure` (and nothing is persisted). -/
theorem claim_C3_counterexample :
    ((recordSaveHandle dbOk connOk ⟨true, [.valid noteA, .malformed "unknown type"]⟩
        stEmpty).err.map SkyError.code = some ErrCode.InvalidArgument) ∧
    ((recordSaveHandle dbOk connOk ⟨true, [.valid noteA, .malformed "unknown type"]⟩
        stEmpty).err.map SkyError.code ≠ some ErrCode.AtomicOperationFailure) ∧
    (recordSaveHandle dbOk connOk ⟨true, [.valid noteA, .malformed "unknown type"]⟩
        stEmpty).st.records = [] := by
  have h : (recordSaveHandle dbOk connOk ⟨true, [.valid noteA, .malformed "unknown type"]⟩
      stEmpty).err.map SkyError.code = some ErrCode.InvalidArgument := rfl
  refine ⟨h, ?_, rfl⟩
  rw [h]
  simp

/-- C3 amended: for every atomic save batch in which at least one record
fails de-serialization, the handler returns a single `InvalidArgument`
error ("fails to de-serialize records") whose info lists the
de-serialization errors, and no record of the batch (neither the valid nor
the malformed ones) is persisted: the store state is untouched and no
store event occurs. -/
theorem claim_C3 (db : Database) (conn : Conn) (p : RecordSavePayload)
    (st : StoreState) (v : ValidatedSave) (acl : FieldACL)
    (hval : recordSavePayloadValidate p = .ok v)
    (hro : db.readOnly = false) (hacl : conn.fieldACL = .ok acl)
    (hat : p.atomic = true) (hclean : v.clean = false) :
    recordSaveHandle db conn p st =
      ⟨some (newErrorWithInfo .InvalidArgument "fails to de-serialize records"
        [("arguments", .str "records"), ("errors", .errList v.errs)]), none, st, []⟩ := by
  simp [recordSaveHandle, hval, hro, hacl, hat, hclean]

/-- Witness for C3 amended: the batch of the counterexample. -/
theorem claim_C3_witness :
    recordSaveHandle dbOk connOk ⟨true, [.valid noteA, .malformed "unknown type"]⟩
        stEmpty =
      ⟨some (newErrorWithInfo .InvalidArgument "fails to de-serialize records"
        [("arguments", .str "records"),
         ("errors", .errList (validateSaveAux
            [.valid noteA, .malformed "unknown type"]).errs)]),
        none, stEmpty, []⟩ :=
  claim_C3 dbOk connOk ⟨true, [.valid noteA, .malformed "unknown type"]⟩ stEmpty
    (validateSaveAux [.valid noteA, .malformed "unknown type"]) []
    rfl rfl rfl rfl rfl

/-! ## Characterization of the per-item loops -/

/-- The failing items of a save batch, with their errors, in input order. -/
def saveFailures (db : Database) (records : List Record) : List (RecordID × SkyError) :=
  records.filterMap (fun r => (db.saveOutcome r.id).map (fun e => (r.id, e)))

/-- The successfully saved items of a save batch, in input order. -/
def saveSuccesses (db : Database) (records : List Record) : List Record :=
  records.filter (fun r => (db.saveOutcome r.id).isNone)

/-- The per-item save loop: failures feed `ErrMap`, successes are appended
to the persisted records and to `SavedRecords` in input order. -/
theorem runSaveItems_spec (db : Database) (st : StoreState) (records : List Record) :
    runSaveItems db st records =
      ⟨saveFailures db records, saveSuccesses db records,
        ⟨st.schema, st.records ++ saveSuccesses db records⟩,
        (saveSuccesses db records).map (fun r => .itemSave r.id)⟩ := by
  induction records generalizing st with
  | nil => simp [runSaveItems, saveFailures, saveSuccesses]
  | cons r rest ih =>
    cases h : db.saveOutcome r.id with
    | some e =>
      simp [runSaveItems, h, ih, saveFailures, saveSuccesses]
    | none =>
      simp [runSaveItems, h, ih, saveFailures, saveSuccesses]

/-- The failing items of a delete batch, with their errors, in input order. -/
def deleteFailures (db : Database) (ids : List RecordID) : List (RecordID × SkyError) :=
  ids.filterMap (fun id => (db.deleteOutcome id).map (fun e => (id, e)))

/-- The error map produced by the per-item delete loop. -/
theorem runDeleteItems_errMap (db : Database) (st : StoreState) (ids : List RecordID) :
    (runDeleteItems db st ids).errMap = deleteFailures db ids := by
  induction ids generalizing st with
  | nil => simp [runDeleteItems, deleteFailures]
  | cons id rest ih =>
    cases h : db.deleteOutcome id with
    | some e => simp [runDeleteItems, h, ih, deleteFailures]
    | none => simp [runDeleteItems, h, ih, deleteFailures]

/-- C4: for every atomic modify batch (save or delete) against a
transaction-capable store, if any item produces a per-item error or the
transaction itself fails, the transaction is rolled back (the store state
is unchanged) and exactly one `AtomicOperationFailure` error is returned
whose info either maps every failing RecordID to its error or wraps the
transaction error. -/
theorem claim_C4 (db : Database) (st : StoreState) (hdb : db.transactional = true) :
    (∀ records : List Record,
      (saveFailures db records ≠ [] ∨ db.txFailure ≠ none) →
        (atomicModifyFunc recordutilRecordSaveHandler db ⟨true, records, []⟩ st).st = st ∧
        (saveFailures db records ≠ [] →
          (atomicModifyFunc recordutilRecordSaveHandler db ⟨true, records, []⟩ st).err =
            some (newErrorWithInfo .AtomicOperationFailure
              "Atomic Operation rolled back due to one or more errors"
              ((saveFailures db records).map fun p => (p.1.toGoString, InfoVal.err p.2)))) ∧
        (∀ m, saveFailures db records = [] → db.txFailure = some m →
          (atomicModifyFunc recordutilRecordSaveHandler db ⟨true, records, []⟩ st).err =
            some (newErrorWithInfo .AtomicOperationFailure
              "Atomic Operation rolled back due to an error"
              [("innerError", InfoVal.goError m)]))) ∧
    (∀ ids : List RecordID,
      (deleteFailures db ids ≠ [] ∨ db.txFailure ≠ none) →
        (atomicModifyFunc recordutilRecordDeleteHandler db ⟨true, [], ids⟩ st).st = st ∧
        (deleteFailures db ids ≠ [] →
          (atomicModifyFunc recordutilRecordDeleteHandler db ⟨true, [], ids⟩ st).err =
            some (newErrorWithInfo .AtomicOperationFailure
              "Atomic Operation rolled back due to one or more errors"
              ((deleteFailures db ids).map fun p => (p.1.toGoString, InfoVal.err p.2)))) ∧
        (∀ m, deleteFailures db ids = [] → db.txFailure = some m →
          (atomicModifyFunc recordutilRecordDeleteHandler db ⟨true, [], ids⟩ st).err =
            some (newErrorWithInfo .AtomicOperationFailure
              "Atomic Operation rolled back due to an error"
              [("innerError", InfoVal.goError m)]))) := by
  constructor
  · intro records hfail
    by_cases hf : saveFailures db records = []
    · rcases hfail with hf' | htx
      · exact absurd hf hf'
      · obtain ⟨m, hm⟩ := Option.ne_none_iff_exists'.mp htx
        refine ⟨?_, fun hf' => absurd hf hf', fun m' _ hm' => ?_⟩
        · simp [atomicModifyFunc, hdb, recordutilRecordSaveHandler,
            runSaveItems_spec, hf, hm]
        · rw [hm] at hm'
          cases hm'
          simp [atomicModifyFunc, hdb, recordutilRecordSaveHandler,
            runSaveItems_spec, hf, hm, GoErr.toInfoVal]
    · refine ⟨?_, fun _ => ?_, fun m hf' _ => absurd hf' hf⟩
      · simp [atomicModifyFunc, hdb, recordutilRecordSaveHandler,
          runSaveItems_spec, hf]
      · simp [atomicModifyFunc, hdb, recordutilRecordSaveHandler,
          runSaveItems_spec, hf]
  · intro ids hfail
    by_cases hf : deleteFailures db ids = []
    · rcases hfail with hf' | htx
      · exact absurd hf hf'
      · obtain ⟨m, hm⟩ := Option.ne_none_iff_exists'.mp htx
        refine ⟨?_, fun hf' => absurd hf hf', fun m' _ hm' => ?_⟩
        · simp [atomicModifyFunc, hdb, recordutilRecordDeleteHandler,
            runDeleteItems_errMap, hf, hm]
        · rw [hm] at hm'
          cases hm'
          simp [atomicModifyFunc, hdb, recordutilRecordDeleteHandler,
            runDeleteItems_errMap, hf, hm, GoErr.toInfoVal]
    · refine ⟨?_, fun _ => ?_, fun m hf' _ => absurd hf' hf⟩
      · simp [atomicModifyFunc, hdb, recordutilRecordDeleteHandler,
          runDeleteItems_errMap, hf]
      · simp [atomicModifyFunc, hdb, recordutilRecordDeleteHandler,
          runDeleteItems_errMap, hf]

/-- Witness for C4: an atomic save of a good and a bad note against a store
that rejects the bad one is rolled back with the aggregate error. -/
theorem claim_C4_witness :
    (atomicModifyFunc recordutilRecordSaveHandler dbBadSave
      ⟨true, [noteA, noteBad], []⟩ stEmpty).st = stEmpty ∧
    (atomicModifyFunc recordutilRecordSaveHandler dbBadSave
      ⟨true, [noteA, noteBad], []⟩ stEmpty).err =
      some (newErrorWithInfo .AtomicOperationFailure
        "Atomic Operation rolled back due to one or more errors"
        ((saveFailures dbBadSave [noteA, noteBad]).map
          fun p => (p.1.toGoString, InfoVal.err p.2))) := by
  have hfail : saveFailures dbBadSave [noteA, noteBad] ≠ [] := by
    rw [show saveFailures dbBadSave [noteA, noteBad] =
      [(⟨"note", "bad"⟩, newError .UnexpectedError "save failed")] from rfl]
    exact List.cons_ne_nil _ _
  have h := (claim_C4 dbBadSave stEmpty rfl).1 [noteA, noteBad] (Or.inl hfail)
  exact ⟨h.1, h.2.1 hfail⟩

/-- The ACL walk reports a `PermissionDenied` error whenever some referenced
field is denied to the principal. -/
theorem visitorError_of_denied (acl : FieldACL) (rt : String) (fields : List String)
    (h : ∃ f ∈ fields, (rt, f) ∈ acl) :
    ∃ e, visitorError acl rt fields = some e ∧ e.code = .PermissionDenied := by
  induction fields with
  | nil => simp at h
  | cons f rest ih =>
    by_cases hf : (rt, f) ∈ acl
    · exact ⟨newError .PermissionDenied ("cannot read field " ++ f ++ " of record type " ++ rt),
        by simp [visitorError, hf], rfl⟩
    · obtain ⟨g, hg, hga⟩ := h
      rcases List.mem_cons.mp hg with hg1 | hg2
      · subst hg1
        exact absurd hga hf
      · obtain ⟨e, he, hc⟩ := ih ⟨g, hg2, hga⟩
        exact ⟨e, by simp [visitorError, hf, he], hc⟩

/-- C5: a query whose principal lacks the bypass flag and whose predicate
references a denied field fails with `PermissionDenied` and the store is
never queried; the store is queried only after the walk completes with
zero denials; a principal with the bypass flag skips the walk entirely. -/
theorem claim_C5 (db : Database) (conn : Conn) (acl : FieldACL) (bypass : Bool)
    (q : QueryData) (hacl : conn.fieldACL = .ok acl) :
    ((bypass = false ∧ ∃ f ∈ q.predicateFields, (q.recordType, f) ∈ acl) →
      ∃ e, (recordQueryHandle db conn bypass q).err = some e ∧
        e.code = .PermissionDenied ∧
        (recordQueryHandle db conn bypass q).storeQueried = false) ∧
    ((recordQueryHandle db conn bypass q).storeQueried = true →
      bypass = true ∨
        ((recordQueryHandle db conn bypass q).walkRan = true ∧
          visitorError acl q.recordType q.predicateFields = none)) ∧
    (bypass = true → (recordQueryHandle db conn bypass q).walkRan = false) := by
  refine ⟨?_, ?_, ?_⟩
  · rintro ⟨hb, hdenied⟩
    obtain ⟨e, he, hc⟩ := visitorError_of_denied acl q.recordType q.predicateFields hdenied
    refine ⟨e, ?_, hc, ?_⟩
    · simp [recordQueryHandle, hacl, hb, he]
    · simp [recordQueryHandle, hacl, hb, he]
  · intro hq
    cases hb : bypass with
    | true => exact Or.inl rfl
    | false =>
      refine Or.inr ?_
      cases hv : visitorError acl q.recordType q.predicateFields with
      | some e =>
        rw [hb] at hq
        simp [recordQueryHandle, hacl, hv] at hq
      | none =>
        refine ⟨?_, rfl⟩
        cases hout : db.queryOutcome with
        | error m => simp [recordQueryHandle, hacl, hb, hv, queryProceed, hout]
        | ok records => simp [recordQueryHandle, hacl, hb, hv, queryProceed, hout]
  · intro hb
    cases hout : db.queryOutcome with
    | error m => simp [recordQueryHandle, hacl, hb, queryProceed, hout]
    | ok records => simp [recordQueryHandle, hacl, hb, queryProceed, hout]

/-- Witness for C5: a query on `note.secret` by a principal whose ACL denies
reading `secret` on `note`, without the bypass flag. -/
theorem claim_C5_witness :
    ∃ e, (recordQueryHandle dbOk ⟨.ok [("note", "secret")]⟩ false
        ⟨"note", ["secret"]⟩).err = some e ∧
      e.code = .PermissionDenied ∧
      (recordQueryHandle dbOk ⟨.ok [("note", "secret")]⟩ false
        ⟨"note", ["secret"]⟩).storeQueried = false :=
  (claim_C5 dbOk ⟨.ok [("note", "secret")]⟩ [("note", "secret")] false
    ⟨"note", ["secret"]⟩ rfl).1 ⟨rfl, "secret", by simp, by simp⟩

/-- The atomic save coordinator on a failing batch: the pre-transaction
state is restored and a single `AtomicOperationFailure` is reported. -/
theorem atomicSave_failure (db : Database) (st : StoreState) (records : List Record)
    (hdb : db.transactional = true)
    (hfail : saveFailures db records ≠ [] ∨ db.txFailure ≠ none) :
    ∃ e, atomicModifyFunc recordutilRecordSaveHandler db ⟨true, records, []⟩ st =
      ⟨some e, saveFailures db records, saveSuccesses db records, st,
        .txBegin :: ((saveSuccesses db records).map (fun r => .itemSave r.id) ++
          [.txRollback])⟩ ∧
      e.code = .AtomicOperationFailure := by
  by_cases hf : saveFailures db records = []
  · rcases hfail with hf' | htx
    · exact absurd hf hf'
    · obtain ⟨m, hm⟩ := Option.ne_none_iff_exists'.mp htx
      refine ⟨newErrorWithInfo .AtomicOperationFailure
        "Atomic Operation rolled back due to an error"
        [("innerError", InfoVal.goError m)], ?_, rfl⟩
      simp [atomicModifyFunc, hdb, recordutilRecordSaveHandler, runSaveItems_spec,
        hf, hm, GoErr.toInfoVal]
  · refine ⟨newErrorWithInfo .AtomicOperationFailure
      "Atomic Operation rolled back due to one or more errors"
      ((saveFailures db records).map fun p => (p.1.toGoString, InfoVal.err p.2)), ?_, rfl⟩
    simp [atomicModifyFunc, hdb, recordutilRecordSaveHandler, runSaveItems_spec, hf]

/-- C6: the schema extension step runs before and outside the atomic
transaction; when the schema was extended and the subsequent atomic save
fails and rolls back, the extended schema remains in place while the
persisted records are restored, and the trace shows the extension
preceding the transaction. -/
theorem claim_C6 (db : Database) (conn : Conn) (p : RecordSavePayload)
    (st : StoreState) (v : ValidatedSave) (acl : FieldACL) (sch' : Schema)
    (hdb : db.transactional = true)
    (hval : recordSavePayloadValidate p = .ok v)
    (hro : db.readOnly = false) (hacl : conn.fieldACL = .ok acl)
    (hat : p.atomic = true) (hclean : v.clean = true)
    (hext : extendRecordSchema st.schema v.records = .ok (true, sch'))
    (hfail : saveFailures db v.records ≠ [] ∨ db.txFailure ≠ none) :
    ∃ e, recordSaveHandle db conn p st =
      ⟨some e, none, ⟨sch', st.records⟩,
        Event.schemaExtended :: Event.txBegin ::
          ((saveSuccesses db v.records).map (fun r => .itemSave r.id) ++
            [Event.txRollback])⟩ ∧
      e.code = .AtomicOperationFailure := by
  obtain ⟨e, hrun, hc⟩ :=
    atomicSave_failure db ⟨sch', st.records⟩ v.records hdb hfail
  refine ⟨e, ?_, hc⟩
  simp only [recordSaveHandle, hval, hro, hacl, hat, hclean, hext,
    Bool.not_true, Bool.and_false, Bool.false_eq_true, if_false, if_true]
  rw [hrun]
  rfl

/-- Witness for C6: an atomic save of a good and a bad note extends the
schema with `note.content`, then rolls the records back, keeping the
extended schema. -/
theorem claim_C6_witness :
    ∃ e, recordSaveHandle dbBadSave connOk ⟨true, [.valid noteA, .valid noteBad]⟩ stEmpty =
      ⟨some e, none, ⟨[(("note", "content"), RType.typeString)], []⟩,
        Event.schemaExtended :: Event.txBegin ::
          ((saveSuccesses dbBadSave [noteA, noteBad]).map (fun r => .itemSave r.id) ++
            [Event.txRollback])⟩ ∧
      e.code = .AtomicOperationFailure := by
  have hfail : saveFailures dbBadSave [noteA, noteBad] ≠ [] := by
    rw [show saveFailures dbBadSave [noteA, noteBad] =
      [(⟨"note", "bad"⟩, newError .UnexpectedError "save failed")] from rfl]
    exact List.cons_ne_nil _ _
  exact claim_C6 dbBadSave connOk ⟨true, [.valid noteA, .valid noteBad]⟩ stEmpty
    (validateSaveAux [.valid noteA, .valid noteBad]) []
    [(("note", "content"), RType.typeString)]
    rfl rfl rfl rfl rfl rfl rfl (Or.inl hfail)

/-! ## Schema-extension lemmas -/

/-- The field merge never alters an existing schema binding. -/
theorem schemaLookup_extendFields (rt : String) (fs : List (String × RVal))
    (sch : Schema) (u u' : Bool) (sch' : Schema)
    (h : extendFields rt sch u fs = .ok (u', sch'))
    (rt' f' : String) (t : RType) (hl : schemaLookup sch rt' f' = some t) :
    schemaLookup sch' rt' f' = some t := by
  induction fs generalizing sch u with
  | nil =>
    simp only [extendFields, Except.ok.injEq, Prod.mk.injEq] at h
    rw [← h.2]
    exact hl
  | cons fv rest ih =>
    obtain ⟨f, v⟩ := fv
    rw [extendFields] at h
    split at h
    next hlf =>
      refine ih (((rt, f), v.inferType) :: sch) true h ?_
      have hk : ¬ ((rt, f) = (rt', f')) := by
        intro hk
        obtain ⟨hk1, hk2⟩ := Prod.mk.injEq .. ▸ hk
        rw [← hk1, ← hk2] at hl
        rw [hl] at hlf
        cases hlf
      simp [schemaLookup, hk, hl]
    next t0 hlf =>
      split at h
      next he => exact ih sch u h hl
      next he => exact Except.noConfusion h

/-- The record merge never alters an existing schema binding. -/
theorem schemaLookup_extendRecords (records : List Record) (sch : Schema)
    (u u' : Bool) (sch' : Schema)
    (h : extendRecords sch u records = .ok (u', sch'))
    (rt' f' : String) (t : RType) (hl : schemaLookup sch rt' f' = some t) :
    schemaLookup sch' rt' f' = some t := by
  induction records generalizing sch u with
  | nil =>
    simp only [extendRecords, Except.ok.injEq, Prod.mk.injEq] at h
    rw [← h.2]
    exact hl
  | cons r rest ih =>
    rw [extendRecords] at h
    split at h
    next g hfe => exact Except.noConfusion h
    next u1 sch1 hfe =>
      exact ih sch1 u1 h
        (schemaLookup_extendFields r.id.type r.fields sch u u1 sch1 hfe rt' f' t hl)

/-- Every error of the field merge is an `IncompatibleSchema` skyerr. -/
theorem extendFields_error_code (rt : String) (fs : List (String × RVal))
    (sch : Schema) (u : Bool) (g : GoErr)
    (h : extendFields rt sch u fs = .error g) :
    ∃ e, g = .sky e ∧ e.code = .IncompatibleSchema := by
  induction fs generalizing sch u with
  | nil => exact Except.noConfusion h
  | cons fv rest ih =>
    obtain ⟨f, v⟩ := fv
    rw [extendFields] at h
    split at h
    next hlf => exact ih (((rt, f), v.inferType) :: sch) true h
    next t0 hlf =>
      split at h
      next he => exact ih sch u h
      next he =>
        refine ⟨newError .IncompatibleSchema
          ("field " ++ f ++ " of record type " ++ rt ++
            " conflicts with the declared schema type"), ?_, rfl⟩
        cases h
        rfl

/-- Every error of the record merge is an `IncompatibleSchema` skyerr. -/
theorem extendRecords_error_code (records : List Record) (sch : Schema)
    (u : Bool) (g : GoErr) (h : extendRecords sch u records = .error g) :
    ∃ e, g = .sky e ∧ e.code = .IncompatibleSchema := by
  induction records generalizing sch u with
  | nil => exact Except.noConfusion h
  | cons r rest ih =>
    rw [extendRecords] at h
    split at h
    next g0 hfe =>
      cases h
      exact extendFields_error_code r.id.type r.fields sch u _ hfe
    next u1 sch1 hfe => exact ih sch1 u1 h

/-- A field whose inferred type conflicts with its declared schema type
makes the field merge fail. -/
theorem extendFields_conflict (rt : String) (fs : List (String × RVal))
    (sch : Schema) (u : Bool) (f : String) (v : RVal) (t : RType)
    (hmem : (f, v) ∈ fs) (hl : schemaLookup sch rt f = some t)
    (hne : v.inferType ≠ t) :
    ∃ g, extendFields rt sch u fs = .error g := by
  induction fs generalizing sch u with
  | nil => simp at hmem
  | cons fv rest ih =>
    obtain ⟨f0, v0⟩ := fv
    rw [extendFields]
    split
    next hlf =>
      have hne0 : ¬ ((f0, v0) = (f, v)) := by
        intro hk
        obtain ⟨hk1, hk2⟩ := Prod.mk.injEq .. ▸ hk
        rw [hk1] at hlf
        rw [hl] at hlf
        cases hlf
      have hmem' : (f, v) ∈ rest := by
        rcases List.mem_cons.mp hmem with h1 | h2
        · exact absurd h1.symm hne0
        · exact h2
      have hl' : schemaLookup (((rt, f0), v0.inferType) :: sch) rt f = some t := by
        have hk : ¬ ((rt, f0) = (rt, f)) := by
          intro hk
          obtain ⟨_, hk2⟩ := Prod.mk.injEq .. ▸ hk
          rw [hk2] at hlf
          rw [hl] at hlf
          cases hlf
        simp [schemaLookup, hk, hl]
      exact ih (((rt, f0), v0.inferType) :: sch) true hmem' hl'
    next t0 hlf =>
      split
      next he =>
        have hmem' : (f, v) ∈ rest := by
          rcases List.mem_cons.mp hmem with h1 | h2
          · obtain ⟨hk1, hk2⟩ := Prod.mk.injEq .. ▸ h1
            rw [hk1] at hl
            rw [hl] at hlf
            cases hlf
            rw [← hk2] at he
            exact absurd he hne
          · exact h2
        exact ih sch u hmem' hl
      next he => exact ⟨_, rfl⟩

/-- A record carrying a conflicting field makes the record merge fail. -/
theorem extendRecords_conflict (records : List Record) (sch : Schema) (u : Bool)
    (r : Record) (f : String) (v : RVal) (t : RType)
    (hr : r ∈ records) (hfv : (f, v) ∈ r.fields)
    (hl : schemaLookup sch r.id.type f = some t) (hne : v.inferType ≠ t) :
    ∃ g, extendRecords sch u records = .error g := by
  induction records generalizing sch u with
  | nil => simp at hr
  | cons r0 rest ih =>
    rw [extendRecords]
    rcases List.mem_cons.mp hr with h1 | h2
    · subst h1
      obtain ⟨g, hg⟩ := extendFields_conflict r.id.type r.fields sch u f v t hfv hl hne
      rw [hg]
      exact ⟨g, rfl⟩
    · cases hfe : extendFields r0.id.type sch u r0.fields with
      | error g => exact ⟨g, rfl⟩
      | ok p =>
        obtain ⟨u1, sch1⟩ := p
        exact ih sch1 u1 h2
          (schemaLookup_extendFields r0.id.type r0.fields sch u u1 sch1 hfe
            r.id.type f t hl)

/-- C7: a save batch in which some incoming value's inferred type conflicts
with the field's declared schema type is rejected whole with an
`IncompatibleSchema` error before any record is saved (no result, state
untouched, no store events), and the stored schema keeps the previously
declared type for that field. -/
theorem claim_C7 (db : Database) (conn : Conn) (p : RecordSavePayload)
    (st : StoreState) (v : ValidatedSave) (acl : FieldACL)
    (hval : recordSavePayloadValidate p = .ok v)
    (hro : db.readOnly = false) (hacl : conn.fieldACL = .ok acl)
    (hcl : p.atomic = false ∨ v.clean = true)
    (r : Record) (f : String) (vf : RVal) (t : RType)
    (hr : r ∈ v.records) (hfv : (f, vf) ∈ r.fields)
    (hl : schemaLookup st.schema r.id.type f = some t)
    (hne : vf.inferType ≠ t) :
    ∃ e, recordSaveHandle db conn p st = ⟨some e, none, st, []⟩ ∧
      e.code = .IncompatibleSchema ∧
      schemaLookup (recordSaveHandle db conn p st).st.schema r.id.type f = some t := by
  obtain ⟨g, hg⟩ := extendRecords_conflict v.records st.schema false r f vf t hr hfv hl hne
  obtain ⟨e, hge, hcode⟩ := extendRecords_error_code v.records st.schema false g hg
  subst hge
  have hclb : (p.atomic && !v.clean) = false := by
    rcases hcl with h | h
    · simp [h]
    · simp [h]
  have hh : recordSaveHandle db conn p st = ⟨some e, none, st, []⟩ := by
    simp only [recordSaveHandle, hval, hro, hacl, hclb, Bool.false_eq_true, if_false]
    rw [show extendRecordSchema st.schema v.records = .error (.sky e) from hg]
  refine ⟨e, hh, hcode, ?_⟩
  rw [hh]
  exact hl

/-- Witness for C7: with `note.age` declared integer, saving a note whose
`age` is the string `twelve` is rejected and the schema keeps `integer`. -/
theorem claim_C7_witness :
    ∃ e, recordSaveHandle dbOk connOk ⟨false, [.valid noteAge]⟩ stAge =
      ⟨some e, none, stAge, []⟩ ∧
      e.code = .IncompatibleSchema ∧
      schemaLookup (recordSaveHandle dbOk connOk ⟨false, [.valid noteAge]⟩ stAge).st.schema
        noteAge.id.type "age" = some RType.typeInteger :=
  claim_C7 dbOk connOk ⟨false, [.valid noteAge]⟩ stAge
    (validateSaveAux [.valid noteAge]) [] rfl rfl rfl (Or.inl rfl)
    noteAge "age" (.str "twelve") RType.typeInteger
    (by simp [validateSaveAux]) (by simp [noteAge]) rfl (by decide)

/-! ## Error-map lookup lemmas -/

/-- A record id whose save succeeds is absent from the failure map. -/
theorem errMapLookup_saveFailures_none (db : Database) (records : List Record)
    (id : RecordID) (h : db.saveOutcome id = none) :
    errMapLookup (saveFailures db records) id = none := by
  induction records with
  | nil => rfl
  | cons r rest ih =>
    cases ho : db.saveOutcome r.id with
    | none =>
      simpa [saveFailures, List.filterMap_cons, ho] using ih
    | some e =>
      have hk : ¬ (r.id = id) := by
        intro hk
        rw [hk, h] at ho
        cases ho
      simpa [saveFailures, List.filterMap_cons, ho, errMapLookup, hk] using ih

/-- A failing record id of the batch maps to its error in the failure map. -/
theorem errMapLookup_saveFailures_some (db : Database) (records : List Record)
    (id : RecordID) (e : SkyError)
    (hmem : ∃ r ∈ records, r.id = id) (h : db.saveOutcome id = some e) :
    errMapLookup (saveFailures db records) id = some e := by
  induction records with
  | nil => simp at hmem
  | cons r rest ih =>
    cases ho : db.saveOutcome r.id with
    | some e0 =>
      by_cases hk : r.id = id
      · rw [hk, h] at ho
        cases ho
        simp [saveFailures, List.filterMap_cons, hk, h, errMapLookup]
      · obtain ⟨r', hr', hid⟩ := hmem
        rcases List.mem_cons.mp hr' with h1 | h2
        · subst h1
          exact absurd hid hk
        · simpa [saveFailures, List.filterMap_cons, ho, errMapLookup, hk] using
            ih ⟨r', h2, hid⟩
    | none =>
      by_cases hk : r.id = id
      · rw [hk, h] at ho
        cases ho
      · obtain ⟨r', hr', hid⟩ := hmem
        rcases List.mem_cons.mp hr' with h1 | h2
        · subst h1
          exact absurd hid hk
        · simpa [saveFailures, List.filterMap_cons, ho] using ih ⟨r', h2, hid⟩

/-! ## Saved-record cursor lemmas -/

/-- If dropping `idx` elements exposes `a`, the cursor reads `a`. -/
theorem getD_of_drop_cons {α : Type} (d : α) (sv : List α) (idx : Nat) (a : α)
    (l : List α) (h : sv.drop idx = a :: l) : sv.getD idx d = a := by
  have h0 : sv[idx]? = some a := by
    have h1 := List.getElem?_drop sv idx 0
    rw [h] at h1
    simpa using h1.symm
  simp [List.getD_eq_getElem?_getD, h0]

/-- Advancing the cursor past `a` leaves the remaining successes. -/
theorem drop_succ_of_drop_cons {α : Type} (sv : List α) (idx : Nat) (a : α)
    (l : List α) (h : sv.drop idx = a :: l) : sv.drop (idx + 1) = l := by
  have h2 := List.drop_drop 1 idx sv
  rw [h] at h2
  simpa [Nat.add_comm] using h2.symm

/-- The result-assembly walk reproduces, for each raw incoming map, exactly
the expected per-item outcome, provided the error map agrees with the
per-item save outcomes and the cursor points at the remaining successes. -/
theorem makeResultsAux_aligned (db : Database) (em : List (RecordID × SkyError))
    (sv : List Record) (rawMaps : List RawRecordMap) :
    ∀ idx : Nat,
    (∀ rec ∈ (validateSaveAux rawMaps).records,
      errMapLookup em rec.id = db.saveOutcome rec.id) →
    sv.drop idx = saveSuccesses db (validateSaveAux rawMaps).records →
    makeResultsAux em sv (validateSaveAux rawMaps).incomingItems idx =
      rawMaps.map (expectedSaveResult db) := by
  induction rawMaps with
  | nil =>
    intro idx H1 H2
    rfl
  | cons m rest ih =>
    intro idx H1 H2
    cases m with
    | malformed msg =>
      simp only [validateSaveAux] at H1 H2 ⊢
      simp only [makeResultsAux, List.map_cons, expectedSaveResult]
      rw [ih idx H1 H2]
    | valid rec =>
      simp only [validateSaveAux] at H1 H2 ⊢
      have hrec := H1 rec (List.mem_cons_self _ _)
      have H1' : ∀ r ∈ (validateSaveAux rest).records,
          errMapLookup em r.id = db.saveOutcome r.id :=
        fun r hr => H1 r (List.mem_cons_of_mem _ hr)
      cases ho : db.saveOutcome rec.id with
      | some e =>
        rw [ho] at hrec
        have H2' : sv.drop idx = saveSuccesses db (validateSaveAux rest).records := by
          rw [H2]
          simp [saveSuccesses, List.filter_cons, ho]
        simp only [makeResultsAux, hrec, List.map_cons, expectedSaveResult, ho]
        rw [ih idx H1' H2']
      | none =>
        rw [ho] at hrec
        have H2c : sv.drop idx =
            rec :: saveSuccesses db (validateSaveAux rest).records := by
          rw [H2]
          simp [saveSuccesses, List.filter_cons, ho]
        simp only [makeResultsAux, hrec, List.map_cons, expectedSaveResult, ho]
        rw [getD_of_drop_cons _ sv idx rec _ H2c,
          ih (idx + 1) H1' (drop_succ_of_drop_cons sv idx rec _ H2c)]

/-- C8: in a non-atomic save batch each item's outcome is independent of its
siblings — the i-th result entry is exactly the i-th item's own outcome (a
de-serialization error, its per-item save error, or its saved record) — and
the persisted records grow by exactly the successful items in input order. -/
theorem claim_C8 (db : Database) (conn : Conn) (p : RecordSavePayload)
    (st : StoreState) (v : ValidatedSave) (acl : FieldACL) (u : Bool) (sch' : Schema)
    (hval : recordSavePayloadValidate p = .ok v)
    (hro : db.readOnly = false) (hacl : conn.fieldACL = .ok acl)
    (hat : p.atomic = false)
    (hext : extendRecordSchema st.schema v.records = .ok (u, sch')) :
    (recordSaveHandle db conn p st).err = none ∧
    (recordSaveHandle db conn p st).result =
      some (p.rawMaps.map (expectedSaveResult db)) ∧
    (recordSaveHandle db conn p st).st.records =
      st.records ++ saveSuccesses db v.records := by
  have hv : v = validateSaveAux p.rawMaps := by
    unfold recordSavePayloadValidate at hval
    split at hval
    · exact Except.noConfusion hval
    · cases hval
      rfl
  subst hv
  have hh : recordSaveHandle db conn p st =
      ⟨none, some (makeResultsFromIncomingItem
          (validateSaveAux p.rawMaps).incomingItems
          (saveFailures db (validateSaveAux p.rawMaps).records)
          (saveSuccesses db (validateSaveAux p.rawMaps).records)),
        ⟨sch', st.records ++ saveSuccesses db (validateSaveAux p.rawMaps).records⟩,
        (if u then [.schemaExtended] else []) ++
          (saveSuccesses db (validateSaveAux p.rawMaps).records).map
            (fun r => .itemSave r.id)⟩ := by
    simp only [recordSaveHandle, hval, hro, hacl, hat, hext, Bool.false_eq_true,
      if_false, Bool.false_and, recordutilRecordSaveHandler, runSaveItems_spec]
  rw [hh]
  refine ⟨rfl, ?_, rfl⟩
  have H1 : ∀ rec ∈ (validateSaveAux p.rawMaps).records,
      errMapLookup (saveFailures db (validateSaveAux p.rawMaps).records) rec.id =
        db.saveOutcome rec.id := by
    intro rec hrec
    cases ho : db.saveOutcome rec.id with
    | none => exact errMapLookup_saveFailures_none db _ rec.id ho
    | some e => exact errMapLookup_saveFailures_some db _ rec.id e ⟨rec, hrec, rfl⟩ ho
  rw [makeResultsFromIncomingItem,
    makeResultsAux_aligned db _ _ p.rawMaps 0 H1 (List.drop_zero _)]

/-- Witness for C8: a non-atomic save of a good note, a malformed map, and a
note the store rejects. -/
theorem claim_C8_witness :
    (recordSaveHandle dbBadSave connOk
      ⟨false, [.valid noteA, .malformed "unknown type", .valid noteBad]⟩ stEmpty).err =
        none ∧
    (recordSaveHandle dbBadSave connOk
      ⟨false, [.valid noteA, .malformed "unknown type", .valid noteBad]⟩ stEmpty).result =
      some ([RawRecordMap.valid noteA, .malformed "unknown type", .valid noteBad].map
        (expectedSaveResult dbBadSave)) ∧
    (recordSaveHandle dbBadSave connOk
      ⟨false, [.valid noteA, .malformed "unknown type", .valid noteBad]⟩ stEmpty).st.records =
      stEmpty.records ++ saveSuccesses dbBadSave
        (validateSaveAux [.valid noteA, .malformed "unknown type", .valid noteBad]).records :=
  claim_C8 dbBadSave connOk
    ⟨false, [.valid noteA, .malformed "unknown type", .valid noteBad]⟩ stEmpty
    (validateSaveAux [.valid noteA, .malformed "unknown type", .valid noteBad]) []
    true [(("note", "content"), RType.typeString)]
    rfl rfl rfl rfl rfl
